import Mathlib

/-!
Verification of the simulation core of the `ten` arcade shooter.

The Rust sources are shallowly embedded here.  Coordinates and speeds,
`f32` in the source, are modelled as exact rationals (`ℚ`); machine-`u32`
counters are modelled as `ℕ`, with an explicit `% 2 ^ 32` where the source
performs wrapping `u32` addition.  Rust `Vec`s become `List`s, and the
`while` loop of the collision resolver becomes a fuel-indexed recursion
whose fuel (one unit per loop iteration that consumes a bullet or advances
the index) is bounded by the bullet count.

The repository mixes snapshots of an evolving prototype: some methods
called by `src/game_state.rs` (`EnemyType`, `Enemy::take_damage`,
`Enemy::is_destroyed`, `Enemy::has_reached_edge`, `Enemy::move_down`, the
three-argument `Enemy::update`) are not defined in any file under `src/`.
Those are modelled from the specification (and pinned down by the in-repo
unit tests); each such definition carries a doc comment saying so.
-/

namespace Ten

/-! ## Constants (src/constants.rs) -/

/-- Screen width in pixels (src/constants.rs). -/
def SCREEN_WIDTH : ℚ := 1024

/-- Screen height in pixels (src/constants.rs). -/
def SCREEN_HEIGHT : ℚ := 575

/-- Bullet movement speed in pixels per second (src/constants.rs). -/
def BULLET_SPEED : ℚ := 700

/-- Initial enemy movement speed in pixels per second (src/constants.rs). -/
def INITIAL_ENEMY_SPEED : ℚ := 150

/-- Distance from the bottom of the screen where enemies trigger game over
(src/constants.rs). -/
def DEFENDER_LINE : ℚ := 100

/-- Collision detection radius in pixels (src/constants.rs). -/
def COLLISION_RADIUS : ℚ := 20

/-- Points awarded for destroying one enemy (src/constants.rs). -/
def POINTS_PER_ENEMY : ℕ := 10

/-- Enemy speed increase per wave (src/constants.rs). -/
def SPEED_INCREASE_PER_WAVE : ℚ := 20

/-- Player base width increase per wave (src/constants.rs). -/
def BASE_WIDTH_INCREASE : ℚ := 20

/-- Modelled from the spec: the fixed edge margin (20 px) used by
`Enemy::has_reached_edge`, which is called by `MainState::update_enemies`
but is not defined in any file under `src/` (spec section 4.2). -/
def EDGE_MARGIN : ℚ := 20

/-- Squared collision radius (src/systems/collision.rs, COLLISION_RADIUS_SQ). -/
def COLLISION_RADIUS_SQ : ℚ := COLLISION_RADIUS * COLLISION_RADIUS

/-! ## Entities -/

/-- Modelled from the spec: the enemy variant tag (`EnemyType`) used by
src/systems/collision.rs and src/systems/wave.rs is not defined in any file
under `src/`; the four variants are named in the spec glossary (standard,
fast, tank, swooper). -/
inductive EnemyType
  | Standard
  | Fast
  | Tank
  | Swooper
deriving DecidableEq, Repr

/-- Modelled from the spec: per-variant point value (`EnemyType::points`),
pinned by the in-repo tests: Standard 10, Fast 20, Swooper 30, Tank 50
(src/systems/collision.rs tests). -/
def EnemyType.points : EnemyType → ℕ
  | .Standard => 10
  | .Fast => 20
  | .Tank => 50
  | .Swooper => 30

/-- Modelled from the spec: starting hit points per variant (spec section
4.2: standard = 1, tank = 3), pinned by the in-repo tests
(src/systems/wave.rs test_enemy_health_initialization). -/
def EnemyType.initialHealth : EnemyType → ℕ
  | .Tank => 3
  | _ => 1

/-- Enemy state: position, per-row direction (src/entities/enemy.rs) plus
the variant tag and remaining health used by src/systems/collision.rs and
src/systems/wave.rs. -/
structure Enemy where
  x : ℚ
  y : ℚ
  direction : ℚ
  enemy_type : EnemyType
  health : ℕ
deriving DecidableEq, Repr

/-- The four-argument constructor used by src/systems/wave.rs and the
src/systems/collision.rs tests: health starts at the variant's initial
value. -/
def Enemy.new (x y direction : ℚ) (t : EnemyType) : Enemy :=
  ⟨x, y, direction, t, t.initialHealth⟩

/-- Modelled from the spec: `Enemy::is_destroyed`, called by
src/systems/collision.rs but defined in no file under `src/` (spec section
4.2: destroyed when hit points reach zero). -/
def Enemy.is_destroyed (e : Enemy) : Bool :=
  e.health == 0

/-- Modelled from the spec: `Enemy::take_damage`, called by
src/systems/collision.rs but defined in no file under `src/` (spec section
4.2: decrements hit points, reports whether the enemy is now destroyed).
Returns the damaged enemy and the destroyed flag. -/
def Enemy.take_damage (e : Enemy) : Enemy × Bool :=
  let h := e.health - 1
  ({ e with health := h }, h == 0)

/-- Modelled from the spec: the three-argument `Enemy::update(direction,
speed, dt)` called by `MainState::update_enemies`; the file
src/entities/enemy.rs only has the two-argument per-enemy-direction
variant.  Spec section 4.2: `x += direction * speed * dt`. -/
def Enemy.updateGlobal (e : Enemy) (direction speed dt : ℚ) : Enemy :=
  { e with x := e.x + direction * speed * dt }

/-- Modelled from the spec: `Enemy::has_reached_edge`, called by
`MainState::update_enemies` but defined in no file under `src/` (spec
section 4.2: true when x is within the fixed 20 px margin of either screen
boundary). -/
def Enemy.has_reached_edge (e : Enemy) : Bool :=
  decide (e.x ≤ EDGE_MARGIN) || decide (e.x ≥ SCREEN_WIDTH - EDGE_MARGIN)

/-- Modelled from the spec: `Enemy::move_down(amount)`, called by
`MainState::update_enemies` but defined in no file under `src/` (spec
glossary: the fixed-distance vertical drop; y grows downward). -/
def Enemy.move_down (e : Enemy) (amount : ℚ) : Enemy :=
  { e with y := e.y + amount }

/-- Embeds `Enemy::has_breached_defender_line` (src/entities/enemy.rs): true when
y exceeds `SCREEN_HEIGHT - DEFENDER_LINE`. -/
def Enemy.has_breached_defender_line (e : Enemy) : Bool :=
  decide (e.y > SCREEN_HEIGHT - DEFENDER_LINE)

/-- Bullet state (src/entities/bullet.rs). -/
structure Bullet where
  x : ℚ
  y : ℚ
deriving DecidableEq, Repr

/-- Embeds `Bullet::update` (src/entities/bullet.rs): `y -= BULLET_SPEED * dt`. -/
def Bullet.update (b : Bullet) (dt : ℚ) : Bullet :=
  { b with y := b.y - BULLET_SPEED * dt }

/-- Embeds `Bullet::is_out_of_bounds` (src/entities/bullet.rs): the source checks
the top edge and both horizontal screen bounds. -/
def Bullet.is_out_of_bounds (b : Bullet) : Bool :=
  decide (b.y < 0) || decide (b.x < 0) || decide (b.x > SCREEN_WIDTH)

/-- Player state (src/entities/player.rs). -/
structure Player where
  x : ℚ
  base_width : ℚ
  available_shots : ℕ
deriving DecidableEq, Repr

/-- Embeds `Player::new` (src/entities/player.rs). -/
def Player.new : Player :=
  ⟨SCREEN_WIDTH / 2, 50, 1⟩

/-- Embeds `Player::upgrade` (src/entities/player.rs): below the cap of 3 shots,
adds one shot and widens the base; at the cap it only logs. -/
def Player.upgrade (p : Player) : Player :=
  if p.available_shots < 3 then
    { p with
      available_shots := p.available_shots + 1
      base_width := p.base_width + BASE_WIDTH_INCREASE }
  else
    p

/-- Embeds `Player::reset` (src/entities/player.rs). -/
def Player.reset (_p : Player) : Player :=
  ⟨SCREEN_WIDTH / 2, 50, 1⟩

/-! ## Collision system (src/systems/collision.rs) -/

/-- Embeds `check_collision` (src/systems/collision.rs): circle collision by
comparing the squared distance against `COLLISION_RADIUS_SQ` with a strict
inequality. -/
def check_collision (b : Bullet) (e : Enemy) : Bool :=
  decide ((e.x - b.x) * (e.x - b.x) + (e.y - b.y) * (e.y - b.y) < COLLISION_RADIUS_SQ)

/-- One record of the `destroyed_info` buffer: (x, y, points). -/
abbrev DestroyedRec := ℚ × ℚ × ℕ

/-- The inner `for enemy in enemies.iter_mut()` scan of `process_collisions`
(src/systems/collision.rs): skip enemies already marked destroyed, damage
the first colliding live enemy and stop (`break`).  Returns `none` when the
bullet hits nothing, otherwise the updated enemy list together with the
`destroyed_info` record pushed when the hit was lethal. -/
def damageFirst (b : Bullet) : List Enemy → Option (List Enemy × Option DestroyedRec)
  | [] => none
  | e :: es =>
    if e.is_destroyed then
      match damageFirst b es with
      | none => none
      | some (es', r) => some (e :: es', r)
    else if check_collision b e then
      let (e', destroyed) := e.take_damage
      some (e' :: es, if destroyed then some (e.x, e.y, e.enemy_type.points) else none)
    else
      match damageFirst b es with
      | none => none
      | some (es', r) => some (e :: es', r)

/-- Embeds `Vec::swap_remove(i)`: replace the element at index `i` with the last
element and pop the last element. -/
def swapRemove (l : List Bullet) (i : ℕ) : List Bullet :=
  match l.getLast? with
  | none => l
  | some last => (l.set i last).dropLast

/-- The `while bullet_idx < bullets.len()` loop of `process_collisions`
(src/systems/collision.rs).  Each iteration either consumes the bullet
at `idx` via `swapRemove` (on a hit) or advances `idx`, so
`bullets.length - idx` strictly decreases; `fuel = bullets.length` is
enough, and when fuel runs out the index is already past the end, making
the zero-fuel branch agree with the loop exit. -/
def collideLoop (fuel : ℕ) (enemies : List Enemy) (bullets : List Bullet)
    (idx : ℕ) (info : List DestroyedRec) :
    List Enemy × List Bullet × List DestroyedRec :=
  match fuel with
  | 0 => (enemies, bullets, info)
  | fuel + 1 =>
    if h : idx < bullets.length then
      match damageFirst bullets[idx] enemies with
      | some (es', r) =>
        collideLoop fuel es' (swapRemove bullets idx) idx
          (match r with
           | some rec => info ++ [rec]
           | none => info)
      | none => collideLoop fuel enemies bullets (idx + 1) info
    else (enemies, bullets, info)

/-- Embeds `process_collisions` (src/systems/collision.rs): run the bullet loop,
then `retain` only the enemies that are not destroyed.  Returns the final
enemy list, the final bullet list, and the `destroyed_info` buffer. -/
def process_collisions (enemies : List Enemy) (bullets : List Bullet) :
    List Enemy × List Bullet × List DestroyedRec :=
  let (es, bs, info) := collideLoop bullets.length enemies bullets 0 []
  (es.filter (fun e => !e.is_destroyed), bs, info)

/-! ## Wave generation (src/systems/wave.rs) -/

/-- Embeds `get_enemy_type_for_row` (src/systems/wave.rs). -/
def get_enemy_type_for_row (row : ℕ) (wave : ℕ) : EnemyType :=
  match row with
  | 0 => if wave ≥ 2 then .Fast else .Standard
  | 1 => .Standard
  | 2 => .Standard
  | 3 => if wave ≥ 3 then .Tank else .Standard
  | _ => if wave ≥ 4 ∧ row == 4 then .Swooper else .Standard

/-- Embeds `generate_grid_formation` (src/systems/wave.rs): 10 columns by 5 rows,
horizontally centred, rows alternating initial direction. -/
def generate_grid_formation (wave : ℕ) : List Enemy :=
  (List.range 10).flatMap fun (i : ℕ) =>
    (List.range 5).map fun (j : ℕ) =>
      Enemy.new ((SCREEN_WIDTH - 9 * 60) / 2 + (i : ℚ) * 60) (50 + (j : ℚ) * 50)
        (if j % 2 == 0 then 1 else -1) (get_enemy_type_for_row j wave)

/-- Embeds `generate_v_formation` (src/systems/wave.rs): 7 rows, each with a left
and a right arm of `row + 1` enemies. -/
def generate_v_formation (wave : ℕ) : List Enemy :=
  (List.range 7).flatMap fun (row : ℕ) =>
    ((List.range (row + 1)).map fun (i : ℕ) =>
      Enemy.new (SCREEN_WIDTH / 2 - 40 * (row : ℚ) - 55 * (i : ℚ)) (80 + 45 * (row : ℚ)) (-1)
        (get_enemy_type_for_row row wave)) ++
    ((List.range (row + 1)).map fun (i : ℕ) =>
      Enemy.new (SCREEN_WIDTH / 2 + 40 * (row : ℚ) + 55 * (i : ℚ)) (80 + 45 * (row : ℚ)) 1
        (get_enemy_type_for_row row wave))

/-- Embeds `generate_diamond_formation` (src/systems/wave.rs): expanding then
contracting rows. -/
def generate_diamond_formation (wave : ℕ) : List Enemy :=
  ([1, 3, 5, 7, 5, 3, 1] : List ℕ).enum.flatMap fun (p : ℕ × ℕ) =>
    (List.range p.2).map fun (i : ℕ) =>
      Enemy.new (SCREEN_WIDTH / 2 - ((p.2 : ℚ) - 1) * 60 / 2 + (i : ℚ) * 60)
        (200 - 100 + (p.1 : ℚ) * 40)
        (if p.1 % 2 == 0 then 1 else -1) (get_enemy_type_for_row p.1 wave)

/-- Embeds `generate_scattered_formation` (src/systems/wave.rs): 35 enemies at
pseudo-random positions.  The RNG is abstracted as a function from the loop
index to the drawn (x, y, direction-coin) triple, so every theorem about
this formation holds for every possible random draw. -/
def generate_scattered_formation (wave : ℕ) (rng : ℕ → ℚ × ℚ × Bool) : List Enemy :=
  (List.range 35).map fun (i : ℕ) =>
    let t : EnemyType :=
      if i % 7 == 0 ∧ wave ≥ 2 then .Fast
      else if (i % 7 == 1 ∨ i % 7 == 2) ∧ wave ≥ 3 then .Tank
      else if i % 7 == 3 ∧ wave ≥ 4 then .Swooper
      else .Standard
    Enemy.new (rng i).1 (rng i).2.1 (if (rng i).2.2 then 1 else -1) t

/-- Embeds `generate_wave` (src/systems/wave.rs): formation selected by
`wave % 4`, with an unreachable grid fallback arm. -/
def generate_wave (wave : ℕ) (rng : ℕ → ℚ × ℚ × Bool) : List Enemy :=
  match wave % 4 with
  | 1 => generate_grid_formation wave
  | 2 => generate_v_formation wave
  | 3 => generate_diamond_formation wave
  | 0 => generate_scattered_formation wave rng
  | _ => generate_grid_formation wave

/-! ## Game state machine (src/game_state.rs) -/

/-- The top-level state enum (src/game_state.rs). -/
inductive GameState
  | Menu
  | Playing
  | GameOver
deriving DecidableEq, Repr

/-- The simulation-relevant fields of `MainState` (src/game_state.rs);
rendering, audio and persistence handles are outside the simulation
core. -/
structure MainState where
  bullets : List Bullet
  enemies : List Enemy
  enemy_direction : ℚ
  enemy_speed : ℚ
  wave_number : ℕ
  state : GameState
  score : ℕ
  moved_down : Bool
deriving Repr

/-- The descent loop inside `MainState::update_enemies`
(src/game_state.rs): each enemy in order is moved down 40 px and then
checked against the defender line; on a breach the method returns at once,
so the remaining enemies are not moved.  Returns the processed list and
whether a breach occurred. -/
def descendAll : List Enemy → List Enemy × Bool
  | [] => ([], false)
  | e :: es =>
    let e' := e.move_down 40
    if e'.has_breached_defender_line then (e' :: es, true)
    else
      let (es', b) := descendAll es
      (e' :: es', b)

/-- Embeds `MainState::update_enemies` (src/game_state.rs): move every enemy by
the shared direction and speed, detect the edge, and on the first edge
frame reverse the shared direction, set `moved_down`, and drop the whole
formation 40 px immediately, transitioning to `GameOver` if any enemy
breaches the defender line during the drop. -/
def update_enemies (s : MainState) (dt : ℚ) : MainState :=
  let es := s.enemies.map fun e => e.updateGlobal s.enemy_direction s.enemy_speed dt
  let reached_edge := es.any Enemy.has_reached_edge
  if reached_edge ∧ s.moved_down = false then
    { s with
      enemies := (descendAll es).1
      enemy_direction := s.enemy_direction * (-1)
      moved_down := true
      state := if (descendAll es).2 then GameState.GameOver else s.state }
  else if reached_edge = false then
    { s with enemies := es, moved_down := false }
  else
    { s with enemies := es }

/-- Embeds `MainState::update_bullets` (src/game_state.rs): advance every bullet,
then retain the in-bounds ones. -/
def update_bullets (s : MainState) (dt : ℚ) : MainState :=
  { s with
    bullets := (s.bullets.map fun b => b.update dt).filter
      (fun b => !b.is_out_of_bounds) }

/-- Embeds `MainState::update_collisions` (src/game_state.rs): run the collision
resolver and add `enemies_destroyed * POINTS_PER_ENEMY` to the score.
The count-returning `process_collisions` called by this snapshot of
src/game_state.rs is not under `src/`; modelled from the spec (section
4.3: the resolver reports the destroyed enemies) as the length of the
`destroyed_info` buffer of the in-src resolver.  The `u32` score wraps. -/
def update_collisions (s : MainState) : MainState :=
  { s with
    enemies := (process_collisions s.enemies s.bullets).1
    bullets := (process_collisions s.enemies s.bullets).2.1
    score := (s.score
      + (process_collisions s.enemies s.bullets).2.2.length * POINTS_PER_ENEMY)
      % 2 ^ 32 }

/-! ## Highscore persistence (src/highscore.rs) -/

/-- Maximum number of persisted highscores (src/highscore.rs,
MAX_SAVED_SCORES). -/
def MAX_SAVED_SCORES : ℕ := 50

/-- A persisted highscore entry (src/highscore.rs). -/
structure HighscoreEntry where
  name : String
  score : ℕ
deriving DecidableEq, Repr

/-- The comparator of `save_highscore` (src/highscore.rs):
`b.score.cmp(&a.score)` sorts by score, highest first. -/
def scoreDescLe (a b : HighscoreEntry) : Bool :=
  decide (b.score ≤ a.score)

/-- The pure content of `HighscoreManager::save_highscore`
(src/highscore.rs): append the new entry to the previously persisted list,
stable-sort by score descending, truncate to `MAX_SAVED_SCORES`.  The file
and localStorage backends are I/O shells around this list transformation;
the prior list is taken as an argument. -/
def save_highscore (entries : List HighscoreEntry) (name : String) (score : ℕ) :
    List HighscoreEntry :=
  (((entries ++ [HighscoreEntry.mk name score]).mergeSort scoreDescLe).take MAX_SAVED_SCORES)

/-! ## Observation functions used to state the claims -/

/-- Total remaining hit points of an enemy list: the quantity one
`take_damage` call decrements by exactly one. -/
def sumHealth (l : List Enemy) : ℕ :=
  (l.map Enemy.health).sum

/-- Sum of the per-enemy variant point values reported in the
`destroyed_info` (x, y, points) records. -/
def sumPoints (info : List DestroyedRec) : ℕ :=
  (info.map fun r => r.2.2).sum

/-- The position components of an enemy, the only fields `check_collision`
reads. -/
def Enemy.pos (e : Enemy) : ℚ × ℚ :=
  (e.x, e.y)

/-- The enemy list after the horizontal-move phase of
`MainState::update_enemies`, before edge detection. -/
def movedEnemies (s : MainState) (dt : ℚ) : List Enemy :=
  s.enemies.map fun e => e.updateGlobal s.enemy_direction s.enemy_speed dt

/-- The edge-detection flag of `MainState::update_enemies`: some enemy is
within the margin after the horizontal move. -/
def edgeTriggered (s : MainState) (dt : ℚ) : Bool :=
  (movedEnemies s dt).any Enemy.has_reached_edge

/-- A concrete Playing state with a single enemy about to cross the right
screen edge. -/
def edgeState : MainState :=
  { bullets := []
    enemies := [Enemy.new 1000 100 1 .Standard]
    enemy_direction := 1
    enemy_speed := 150
    wave_number := 1
    state := .Playing
    score := 0
    moved_down := false }

/-- A concrete Playing state with one full-health Tank and three bullets
stacked on top of it. -/
def tankState : MainState :=
  { bullets := [Bullet.mk 100 200, Bullet.mk 100 200, Bullet.mk 100 200]
    enemies := [Enemy.new 100 200 1 .Tank]
    enemy_direction := 1
    enemy_speed := 150
    wave_number := 1
    state := .Playing
    score := 0
    moved_down := false }

/-- A concrete Playing state whose single enemy already sits below the
defender line, far away from both screen edges. -/
def breachedState : MainState :=
  { bullets := []
    enemies := [Enemy.new 500 500 1 .Standard]
    enemy_direction := 1
    enemy_speed := 150
    wave_number := 1
    state := .Playing
    score := 0
    moved_down := false }

/-! # Theorems -/

/-! ## Helper lemmas about the collision scan -/

/-- A `damageFirst` hit leaves every enemy position (and variant) in place:
only one health field changes. -/
theorem damageFirst_map_pos (b : Bullet) :
    ∀ (es es' : List Enemy) (r : Option DestroyedRec),
      damageFirst b es = some (es', r) →
      es'.map Enemy.pos = es.map Enemy.pos ∧
      es'.map Enemy.enemy_type = es.map Enemy.enemy_type ∧
      es'.length = es.length := by
  intro es
  induction es with
  | nil => intro es' r h; simp [damageFirst] at h
  | cons e es ih =>
    intro es' r h
    rw [damageFirst] at h
    by_cases hd : e.is_destroyed
    · rw [if_pos hd] at h
      cases hrec : damageFirst b es with
      | none => rw [hrec] at h; exact absurd h (by simp)
      | some p =>
        rw [hrec] at h
        obtain ⟨hes, hr⟩ : e :: p.1 = es' ∧ p.2 = r := by
          constructor <;> · injection h with h'; rw [Prod.ext_iff] at h'; simp_all
        obtain ⟨h1, h2, h3⟩ := ih p.1 p.2 (by rw [hrec])
        subst hes
        simp [Enemy.pos, h1, h2, h3]
    · rw [if_neg hd] at h
      by_cases hc : check_collision b e
      · rw [if_pos hc] at h
        have hes : ({ e with health := e.health - 1 } : Enemy) :: es = es' := by
          injection h with h'; rw [Prod.ext_iff] at h'
          simpa [Enemy.take_damage] using h'.1
        subst hes
        simp [Enemy.pos]
      · rw [if_neg hc] at h
        cases hrec : damageFirst b es with
        | none => rw [hrec] at h; exact absurd h (by simp)
        | some p =>
          rw [hrec] at h
          obtain ⟨hes, hr⟩ : e :: p.1 = es' ∧ p.2 = r := by
            constructor <;> · injection h with h'; rw [Prod.ext_iff] at h'; simp_all
          obtain ⟨h1, h2, h3⟩ := ih p.1 p.2 (by rw [hrec])
          subst hes
          simp [Enemy.pos, h1, h2, h3]

/-- A `damageFirst` hit removes exactly one point of total health, marks
exactly one enemy destroyed when (and only when) a record is pushed, and
only happens when some listed enemy is live and in range. -/
theorem damageFirst_step (b : Bullet) :
    ∀ (es es' : List Enemy) (r : Option DestroyedRec),
      damageFirst b es = some (es', r) →
      sumHealth es = sumHealth es' + 1 ∧
      es'.countP Enemy.is_destroyed
        = es.countP Enemy.is_destroyed + (if r.isSome then 1 else 0) ∧
      ∃ e ∈ es, e.is_destroyed = false ∧ check_collision b e = true := by
  intro es
  induction es with
  | nil => intro es' r h; simp [damageFirst] at h
  | cons e es ih =>
    intro es' r h
    rw [damageFirst] at h
    by_cases hd : e.is_destroyed
    · rw [if_pos hd] at h
      cases hrec : damageFirst b es with
      | none => rw [hrec] at h; exact absurd h (by simp)
      | some p =>
        rw [hrec] at h
        obtain ⟨hes, hr⟩ : e :: p.1 = es' ∧ p.2 = r := by
          constructor <;> · injection h with h'; rw [Prod.ext_iff] at h'; simp_all
        obtain ⟨h1, h2, eh, hmem, hlive, hcol⟩ := ih p.1 p.2 (by rw [hrec])
        subst hes; subst hr
        refine ⟨?_, ?_, eh, List.mem_cons_of_mem _ hmem, hlive, hcol⟩
        · simp only [sumHealth, List.map_cons, List.sum_cons] at h1 ⊢
          omega
        · simp only [List.countP_cons, hd, if_pos] at h2 ⊢
          omega
    · rw [if_neg hd] at h
      by_cases hc : check_collision b e
      · rw [if_pos hc] at h
        have hhealth : e.health ≠ 0 := by
          simpa [Enemy.is_destroyed] using hd
        obtain ⟨hes, hr⟩ :
            ({ e with health := e.health - 1 } : Enemy) :: es = es' ∧
            (if e.health - 1 == 0 then
                some (e.x, e.y, e.enemy_type.points) else none) = r := by
          constructor <;> · injection h with h'; rw [Prod.ext_iff] at h'
                            simp_all [Enemy.take_damage]
        subst hes; subst hr
        refine ⟨?_, ?_, e, List.mem_cons_self e es, by simpa using hd, hc⟩
        · simp only [sumHealth, List.map_cons, List.sum_cons]
          omega
        · simp only [List.countP_cons, Enemy.is_destroyed]
          by_cases hz : e.health - 1 = 0 <;> simp [hz, hhealth]
      · rw [if_neg hc] at h
        cases hrec : damageFirst b es with
        | none => rw [hrec] at h; exact absurd h (by simp)
        | some p =>
          rw [hrec] at h
          obtain ⟨hes, hr⟩ : e :: p.1 = es' ∧ p.2 = r := by
            constructor <;> · injection h with h'; rw [Prod.ext_iff] at h'; simp_all
          obtain ⟨h1, h2, eh, hmem, hlive, hcol⟩ := ih p.1 p.2 (by rw [hrec])
          subst hes; subst hr
          refine ⟨?_, ?_, eh, List.mem_cons_of_mem _ hmem, hlive, hcol⟩
          · simp only [sumHealth, List.map_cons, List.sum_cons] at h1 ⊢
            omega
          · simp only [List.countP_cons] at h2 ⊢
            omega

/-- The collision test only reads the bullet and the enemy position. -/
theorem check_collision_congr_pos (b : Bullet) (e e' : Enemy)
    (h : e.pos = e'.pos) : check_collision b e = check_collision b e' := by
  obtain ⟨hx, hy⟩ := Prod.mk.injEq .. ▸ h
  rw [check_collision, check_collision, hx, hy]

/-- Out-of-range bullets stay out of range across any health-only change of
the enemy list. -/
theorem check_false_of_map_pos (b : Bullet) (es es' : List Enemy)
    (hpos : es'.map Enemy.pos = es.map Enemy.pos)
    (h : ∀ e ∈ es, check_collision b e = false) :
    ∀ e' ∈ es', check_collision b e' = false := by
  intro e' he'
  have : e'.pos ∈ es.map Enemy.pos := by
    rw [← hpos]; exact List.mem_map_of_mem Enemy.pos he'
  obtain ⟨e, hmem, hpe⟩ := List.mem_map.mp this
  rw [check_collision_congr_pos b e' e hpe.symm]
  exact h e hmem

/-- Length of a `swap_remove` at a valid index. -/
theorem length_swapRemove (l : List Bullet) (i : ℕ) (h : i < l.length) :
    (swapRemove l i).length = l.length - 1 := by
  have hne : l ≠ [] := by intro he; subst he; simp at h
  rw [swapRemove, List.getLast?_eq_getLast l hne]
  simp [List.length_dropLast]

/-- A `swap_remove` at a valid index removes exactly one occurrence of the
element stored there and moves nothing else in or out. -/
theorem count_swapRemove (l : List Bullet) (i : ℕ) (h : i < l.length) (b : Bullet) :
    (swapRemove l i).count b + (if l[i] = b then 1 else 0) = l.count b := by
  have hne : l ≠ [] := by intro he; subst he; simp at h
  have hswap : swapRemove l i = (l.set i (l.getLast hne)).dropLast := by
    rw [swapRemove, List.getLast?_eq_getLast l hne]
  rw [hswap]
  set v := l.getLast hne with hv
  set m := l.set i v with hmdef
  have hm : m.length = l.length := List.length_set ..
  have hmne : m ≠ [] := by
    intro he
    rw [he] at hm
    simp at hm
    omega
  have hlast0 : m.getLast? = some v := by
    rw [List.getLast?_eq_getElem?, hm, hmdef]
    by_cases hi : i = l.length - 1
    · subst hi
      exact List.getElem?_set_self h
    · rw [List.getElem?_set_ne hi, ← List.getLast?_eq_getElem?,
        List.getLast?_eq_getLast l hne, hv]
  have hlast : m.getLast hmne = v := by
    have h2 := List.getLast?_eq_getLast m hmne
    rw [h2] at hlast0
    exact Option.some.inj hlast0
  have hsplit : m.dropLast ++ [v] = m := by
    conv_rhs => rw [← List.dropLast_append_getLast hmne]
    rw [hlast]
  have hcount_m : m.count b = m.dropLast.count b + (if v = b then 1 else 0) := by
    conv_lhs => rw [← hsplit]
    rw [List.count_append]
    simp [List.count_cons, List.count_nil]
  have hset : m.count b + (if l[i] = b then 1 else 0)
      = l.count b + (if v = b then 1 else 0) := by
    rw [hmdef, List.count_set v b l i h]
    simp only [beq_iff_eq]
    rcases eq_or_ne l[i] b with he | he
    · have hpos : 0 < l.count b := by
        rw [List.count_pos_iff]
        exact he ▸ List.getElem_mem h
      rw [if_pos he]
      rcases eq_or_ne v b with hvb | hvb
      · rw [if_pos hvb]
        omega
      · rw [if_neg hvb]
        omega
    · rw [if_neg he]
      rcases eq_or_ne v b with hvb | hvb
      · rw [if_pos hvb]
        omega
      · rw [if_neg hvb]
        omega
  split_ifs at hcount_m hset ⊢ <;> omega

/-- Master invariant of the bullet-processing loop: positions are only ever
read, never written; the bullet list shrinks; every consumed bullet
accounts for exactly one point of damage; every pushed `destroyed_info`
record accounts for exactly one enemy newly marked destroyed; and a bullet
in range of no enemy keeps its multiplicity. -/
theorem collideLoop_spec (fuel : ℕ) :
    ∀ (es : List Enemy) (bs : List Bullet) (idx : ℕ) (info : List DestroyedRec),
      bs.length - idx ≤ fuel →
      ((collideLoop fuel es bs idx info).1.map Enemy.pos = es.map Enemy.pos) ∧
      ((collideLoop fuel es bs idx info).2.1.length ≤ bs.length) ∧
      (sumHealth es + (collideLoop fuel es bs idx info).2.1.length
        = sumHealth (collideLoop fuel es bs idx info).1 + bs.length) ∧
      ((collideLoop fuel es bs idx info).2.2.length
          + es.countP Enemy.is_destroyed
        = info.length + (collideLoop fuel es bs idx info).1.countP Enemy.is_destroyed) ∧
      (∀ b : Bullet, (∀ e ∈ es, check_collision b e = false) →
        (collideLoop fuel es bs idx info).2.1.count b = bs.count b) := by
  induction fuel with
  | zero =>
    intro es bs idx info hfuel
    simp [collideLoop]
  | succ fuel ih =>
    intro es bs idx info hfuel
    by_cases h : idx < bs.length
    · cases hd : damageFirst bs[idx] es with
      | none =>
        have hred : collideLoop (fuel + 1) es bs idx info
            = collideLoop fuel es bs (idx + 1) info := by
          rw [collideLoop, dif_pos h, hd]
        rw [hred]
        exact ih es bs (idx + 1) info (by omega)
      | some p =>
        obtain ⟨es', r⟩ := p
        obtain ⟨hpos, htype, hlen⟩ := damageFirst_map_pos _ es es' r hd
        obtain ⟨hsum, hcnt, e₀, he₀, hlive₀, hcol₀⟩ := damageFirst_step _ es es' r hd
        have hbslen : (swapRemove bs idx).length = bs.length - 1 :=
          length_swapRemove bs idx h
        cases r with
        | none =>
          simp only [Option.isSome_none, Bool.false_eq_true, if_false, Nat.add_zero] at hcnt
          have hred : collideLoop (fuel + 1) es bs idx info
              = collideLoop fuel es' (swapRemove bs idx) idx info := by
            rw [collideLoop, dif_pos h, hd]
          obtain ⟨ih1, ih2, ih3, ih4, ih5⟩ :=
            ih es' (swapRemove bs idx) idx info (by omega)
          rw [hred]
          refine ⟨?_, ?_, ?_, ?_, ?_⟩
          · rw [ih1, hpos]
          · rw [hbslen] at ih2
            omega
          · rw [hbslen] at ih3
            omega
          · omega
          · intro b hb
            have hb' : ∀ e ∈ es', check_collision b e = false :=
              check_false_of_map_pos b es es' hpos hb
            have hnotb : bs[idx] ≠ b := by
              intro heq
              have hfalse := hb e₀ he₀
              rw [heq] at hcol₀
              rw [hcol₀] at hfalse
              exact absurd hfalse (by simp)
            have hcs := count_swapRemove bs idx h b
            rw [if_neg hnotb] at hcs
            rw [ih5 b hb']
            omega
        | some rec =>
          simp only [Option.isSome_some, if_true, if_pos] at hcnt
          have hred : collideLoop (fuel + 1) es bs idx info
              = collideLoop fuel es' (swapRemove bs idx) idx (info ++ [rec]) := by
            rw [collideLoop, dif_pos h, hd]
          obtain ⟨ih1, ih2, ih3, ih4, ih5⟩ :=
            ih es' (swapRemove bs idx) idx (info ++ [rec]) (by omega)
          rw [hred]
          refine ⟨?_, ?_, ?_, ?_, ?_⟩
          · rw [ih1, hpos]
          · rw [hbslen] at ih2
            omega
          · rw [hbslen] at ih3
            omega
          · simp only [List.length_append, List.length_cons, List.length_nil] at ih4
            omega
          · intro b hb
            have hb' : ∀ e ∈ es', check_collision b e = false :=
              check_false_of_map_pos b es es' hpos hb
            have hnotb : bs[idx] ≠ b := by
              intro heq
              have hfalse := hb e₀ he₀
              rw [heq] at hcol₀
              rw [hcol₀] at hfalse
              exact absurd hfalse (by simp)
            have hcs := count_swapRemove bs idx h b
            rw [if_neg hnotb] at hcs
            rw [ih5 b hb']
            omega
    · have hred : collideLoop (fuel + 1) es bs idx info = (es, bs, info) := by
        rw [collideLoop, dif_neg h]
      rw [hred]
      simp

/-- Destroyed enemies carry zero health, so the final `retain` does not
change the total remaining health. -/
theorem sumHealth_filter_alive (l : List Enemy) :
    sumHealth (l.filter fun e => !e.is_destroyed) = sumHealth l := by
  induction l with
  | nil => rfl
  | cons e l ih =>
    by_cases hd : e.is_destroyed
    · have hh : e.health = 0 := by simpa [Enemy.is_destroyed] using hd
      simp [List.filter_cons, hd, sumHealth, hh] at ih ⊢
      omega
    · have hd' : e.is_destroyed = false := by simpa using hd
      simp [List.filter_cons, hd', sumHealth] at ih ⊢
      omega

/-- The final `retain` removes exactly the enemies marked destroyed. -/
theorem length_filter_alive (l : List Enemy) :
    (l.filter fun e => !e.is_destroyed).length + l.countP Enemy.is_destroyed
      = l.length := by
  induction l with
  | nil => rfl
  | cons e l ih =>
    by_cases hd : e.is_destroyed
    · simp [List.filter_cons, hd, List.countP_cons]
      omega
    · have hd' : e.is_destroyed = false := by simpa using hd
      simp [List.filter_cons, hd', List.countP_cons]
      omega

/-- Facts about a whole `process_collisions` pass, derived from the loop
invariant: the bullet list shrinks, total damage dealt equals the number of
consumed bullets, an out-of-range bullet keeps its multiplicity, and the
destroyed records account exactly for the removed enemies. -/
theorem process_collisions_spec (es : List Enemy) (bs : List Bullet) :
    ((process_collisions es bs).2.1.length ≤ bs.length) ∧
    (sumHealth es + (process_collisions es bs).2.1.length
      = sumHealth (process_collisions es bs).1 + bs.length) ∧
    (∀ b : Bullet, (∀ e ∈ es, check_collision b e = false) →
      (process_collisions es bs).2.1.count b = bs.count b) ∧
    ((process_collisions es bs).1.length + (process_collisions es bs).2.2.length
        + es.countP Enemy.is_destroyed
      = es.length) := by
  have hspec := collideLoop_spec bs.length es bs 0 [] (by omega)
  rcases hcc : collideLoop bs.length es bs 0 [] with ⟨es₁, bs₁, info₁⟩
  rw [hcc] at hspec
  obtain ⟨h1, h2, h3, h4, h5⟩ := hspec
  have hproc : process_collisions es bs
      = (es₁.filter (fun e => !e.is_destroyed), bs₁, info₁) := by
    rw [process_collisions, hcc]
  rw [hproc]
  dsimp only at h1 h2 h3 h4 h5 ⊢
  have hlen₁ : es₁.length = es.length := by
    have := congrArg List.length h1
    simpa using this
  have hfl := length_filter_alive es₁
  have hfs := sumHealth_filter_alive es₁
  refine ⟨h2, ?_, h5, ?_⟩
  · rw [hfs]
    exact h3
  · simp only [List.length_nil] at h4
    omega

/-! ## Helper lemmas about the formation update -/

/-- When no breach is reported, the descent loop dropped every enemy by
exactly 40 px. -/
theorem descendAll_no_breach (l : List Enemy) (h : (descendAll l).2 = false) :
    (descendAll l).1 = l.map fun e => e.move_down 40 := by
  induction l with
  | nil => rfl
  | cons e l ih =>
    by_cases hb : (e.move_down 40).has_breached_defender_line
    · exfalso
      rw [descendAll, if_pos hb] at h
      simp at h
    · have hred : descendAll (e :: l)
          = (e.move_down 40 :: (descendAll l).1, (descendAll l).2) := by
        rw [descendAll, if_neg hb]
      rw [hred] at h ⊢
      dsimp only at h ⊢
      rw [List.map_cons, ih h]

/-- The descent loop never touches x coordinates. -/
theorem descendAll_map_x (l : List Enemy) :
    (descendAll l).1.map Enemy.x = l.map Enemy.x := by
  induction l with
  | nil => rfl
  | cons e l ih =>
    by_cases hb : (e.move_down 40).has_breached_defender_line
    · rw [descendAll, if_pos hb]
      simp [Enemy.move_down]
    · have hred : descendAll (e :: l)
          = (e.move_down 40 :: (descendAll l).1, (descendAll l).2) := by
        rw [descendAll, if_neg hb]
      rw [hred]
      dsimp only
      simp only [List.map_cons, Enemy.move_down]
      rw [ih]

/-- The edge-frame equation of `update_enemies`: some enemy reached the
edge after the horizontal move and the previous frame was not already a
descent frame. -/
theorem update_enemies_edge_eq (s : MainState) (dt : ℚ)
    (hedge : edgeTriggered s dt = true) (hmd : s.moved_down = false) :
    update_enemies s dt
      = { s with
          enemies := (descendAll (movedEnemies s dt)).1
          enemy_direction := s.enemy_direction * (-1)
          moved_down := true
          state := if (descendAll (movedEnemies s dt)).2 then GameState.GameOver
            else s.state } := by
  rw [edgeTriggered, movedEnemies] at hedge
  rw [update_enemies, if_pos ⟨hedge, hmd⟩, movedEnemies]

/-- The quiet-frame equation of `update_enemies`: no enemy reached the edge
after the horizontal move. -/
theorem update_enemies_no_edge_eq (s : MainState) (dt : ℚ)
    (hedge : edgeTriggered s dt = false) :
    update_enemies s dt
      = { s with enemies := movedEnemies s dt, moved_down := false } := by
  rw [edgeTriggered, movedEnemies] at hedge
  rw [update_enemies, if_neg (by simp [hedge]), if_pos hedge, movedEnemies]

/-- The still-descending equation of `update_enemies`: an edge is reached
but `moved_down` is already set, so only the horizontal move happens. -/
theorem update_enemies_already_down_eq (s : MainState) (dt : ℚ)
    (hedge : edgeTriggered s dt = true) (hmd : s.moved_down = true) :
    update_enemies s dt = { s with enemies := movedEnemies s dt } := by
  rw [edgeTriggered, movedEnemies] at hedge
  rw [update_enemies, if_neg (by simp [hmd]), if_neg (by simp [hedge]), movedEnemies]

/-- The horizontal move leaves y untouched. -/
theorem movedEnemies_map_y (s : MainState) (dt : ℚ) :
    (movedEnemies s dt).map Enemy.y = s.enemies.map Enemy.y := by
  rw [movedEnemies, List.map_map]
  rfl

/-- The horizontal move advances every x by `direction * speed * dt`. -/
theorem movedEnemies_map_x (s : MainState) (dt : ℚ) :
    (movedEnemies s dt).map Enemy.x
      = s.enemies.map fun e => e.x + s.enemy_direction * s.enemy_speed * dt := by
  rw [movedEnemies, List.map_map]
  rfl

/-- In every `update_enemies` call, whatever the branch, every enemy x
advances by exactly `direction * speed * dt`. -/
theorem update_enemies_map_x (s : MainState) (dt : ℚ) :
    (update_enemies s dt).enemies.map Enemy.x
      = s.enemies.map fun e => e.x + s.enemy_direction * s.enemy_speed * dt := by
  by_cases hedge : edgeTriggered s dt
  · by_cases hmd : s.moved_down
    · rw [update_enemies_already_down_eq s dt hedge hmd]
      exact movedEnemies_map_x s dt
    · rw [update_enemies_edge_eq s dt hedge (by simpa using hmd)]
      dsimp only
      rw [descendAll_map_x]
      exact movedEnemies_map_x s dt
  · rw [update_enemies_no_edge_eq s dt (by simpa using hedge)]
    exact movedEnemies_map_x s dt

/-! ## Wave-generation length lemmas -/

/-- The grid formation always has 10 × 5 enemies. -/
theorem generate_grid_formation_length (w : ℕ) :
    (generate_grid_formation w).length = 50 := by
  rw [generate_grid_formation]
  simp [List.length_flatMap, List.length_map, List.length_range, Function.comp_def]

/-- The V formation always has 2 · (1 + 2 + ... + 7) enemies. -/
theorem generate_v_formation_length (w : ℕ) :
    (generate_v_formation w).length = 56 := by
  rw [generate_v_formation]
  simp [List.length_flatMap, List.length_append, List.length_map, List.length_range,
    Function.comp_def]
  decide

/-- The diamond formation always has 1+3+5+7+5+3+1 enemies. -/
theorem generate_diamond_formation_length (w : ℕ) :
    (generate_diamond_formation w).length = 25 := by
  rw [generate_diamond_formation]
  simp [List.length_flatMap, List.length_map, List.length_range, List.enum,
    Function.comp_def]

/-- The scattered formation always has 35 enemies, whatever the RNG
draws. -/
theorem generate_scattered_formation_length (w : ℕ) (rng : ℕ → ℚ × ℚ × Bool) :
    (generate_scattered_formation w rng).length = 35 := by
  rw [generate_scattered_formation]
  simp [List.length_map, List.length_range]

/-! ## Claim theorems -/

/-- C6: for every bullet and enemy, `check_collision` returns true iff the
squared Euclidean distance between their positions is strictly less than
the collision radius squared, and returns false when the distance exactly
equals the radius. -/
theorem check_collision_strict_iff (b : Bullet) (e : Enemy) :
    (check_collision b e = true ↔
      (b.x - e.x) ^ 2 + (b.y - e.y) ^ 2 < COLLISION_RADIUS ^ 2) ∧
    ((b.x - e.x) ^ 2 + (b.y - e.y) ^ 2 = COLLISION_RADIUS ^ 2 →
      check_collision b e = false) := by
  have hring : (e.x - b.x) * (e.x - b.x) + (e.y - b.y) * (e.y - b.y)
      = (b.x - e.x) ^ 2 + (b.y - e.y) ^ 2 := by ring
  have hrad : COLLISION_RADIUS_SQ = COLLISION_RADIUS ^ 2 := by
    rw [COLLISION_RADIUS_SQ]
    ring
  constructor
  · rw [check_collision, decide_eq_true_eq, hring, hrad]
  · intro h
    rw [check_collision, hring, hrad, h]
    simp

/-- Witness for C6 at the boundary: bullet (0,0) against an enemy at
(20,0) sits at squared distance exactly 400 and is not a hit. -/
theorem check_collision_strict_iff_witness :
    (((Bullet.mk 0 0).x - (Enemy.new 20 0 1 .Standard).x) ^ 2
        + ((Bullet.mk 0 0).y - (Enemy.new 20 0 1 .Standard).y) ^ 2
      = COLLISION_RADIUS ^ 2) ∧
    check_collision (Bullet.mk 0 0) (Enemy.new 20 0 1 .Standard) = false := by
  have h : ((Bullet.mk 0 0).x - (Enemy.new 20 0 1 .Standard).x) ^ 2
      + ((Bullet.mk 0 0).y - (Enemy.new 20 0 1 .Standard).y) ^ 2
      = COLLISION_RADIUS ^ 2 := by
    norm_num [Bullet.mk, Enemy.new, COLLISION_RADIUS]
  exact ⟨h, (check_collision_strict_iff (Bullet.mk 0 0) (Enemy.new 20 0 1 .Standard)).2 h⟩

/-- C7: for every wave number at least 1 and every possible random draw,
`generate_wave` returns a non-empty collection, and each of the four
formation branches produces at least one enemy. -/
theorem generate_wave_nonempty (w : ℕ) (rng : ℕ → ℚ × ℚ × Bool) (_hw : 1 ≤ w) :
    generate_wave w rng ≠ [] ∧
    generate_grid_formation w ≠ [] ∧
    generate_v_formation w ≠ [] ∧
    generate_diamond_formation w ≠ [] ∧
    generate_scattered_formation w rng ≠ [] := by
  have hg := generate_grid_formation_length w
  have hv := generate_v_formation_length w
  have hd := generate_diamond_formation_length w
  have hs := generate_scattered_formation_length w rng
  have hne : ∀ (l : List Enemy) (n : ℕ), l.length = n → n ≠ 0 → l ≠ [] := by
    intro l n hl hn he
    subst he
    simp at hl
    omega
  refine ⟨?_, hne _ _ hg (by omega), hne _ _ hv (by omega),
    hne _ _ hd (by omega), hne _ _ hs (by omega)⟩
  have h4 : w % 4 = 0 ∨ w % 4 = 1 ∨ w % 4 = 2 ∨ w % 4 = 3 := by omega
  rcases h4 with h | h | h | h <;> simp only [generate_wave, h]
  · exact hne _ _ hs (by omega)
  · exact hne _ _ hg (by omega)
  · exact hne _ _ hv (by omega)
  · exact hne _ _ hd (by omega)

/-- Witness for C7 at wave 1 with a constant RNG. -/
theorem generate_wave_nonempty_witness :
    1 ≤ 1 ∧ generate_wave 1 (fun _ => (0, 0, true)) ≠ [] :=
  ⟨le_refl 1, (generate_wave_nonempty 1 (fun _ => (0, 0, true)) (le_refl 1)).1⟩

/-- C8 counterexample: the bullet at (-10, 100) has y ≥ 0 yet
`is_out_of_bounds` reports it out of bounds, because the source also
checks the horizontal screen bounds. -/
theorem is_out_of_bounds_not_y_only_cex :
    (Bullet.mk (-10) 100).is_out_of_bounds = true ∧
    ¬((Bullet.mk (-10) 100).y < 0) := by
  constructor
  · rw [Bullet.is_out_of_bounds]
    norm_num
  · show ¬((100 : ℚ) < 0)
    norm_num

/-- C8 (amended): `is_out_of_bounds` returns true exactly when y < 0 or
x < 0 or x exceeds the screen width. -/
theorem is_out_of_bounds_iff (b : Bullet) :
    b.is_out_of_bounds = true ↔ (b.y < 0 ∨ b.x < 0 ∨ b.x > SCREEN_WIDTH) := by
  rw [Bullet.is_out_of_bounds]
  simp [or_assoc]

/-- C9: below the cap of 3 shots, `upgrade` adds one shot and one width
increment leaving every other field unchanged; at or above the cap it is a
no-op. -/
theorem player_upgrade_spec (p : Player) :
    (p.available_shots < 3 →
      p.upgrade = { p with
        available_shots := p.available_shots + 1
        base_width := p.base_width + BASE_WIDTH_INCREASE }) ∧
    (3 ≤ p.available_shots → p.upgrade = p) := by
  constructor
  · intro h
    rw [Player.upgrade, if_pos h]
  · intro h
    rw [Player.upgrade, if_neg (by omega)]

/-- Witness for C9: one upgrade below the cap and one at the cap. -/
theorem player_upgrade_spec_witness :
    (Player.new.available_shots < 3 ∧
      Player.new.upgrade = { Player.new with
        available_shots := Player.new.available_shots + 1
        base_width := Player.new.base_width + BASE_WIDTH_INCREASE }) ∧
    (3 ≤ (Player.mk 512 90 3).available_shots ∧
      (Player.mk 512 90 3).upgrade = Player.mk 512 90 3) :=
  ⟨⟨by norm_num [Player.new], (player_upgrade_spec Player.new).1 (by norm_num [Player.new])⟩,
    ⟨by norm_num, (player_upgrade_spec (Player.mk 512 90 3)).2 (by norm_num)⟩⟩

/-- C10: whatever was previously persisted, after `save_highscore` the list
holds at most 50 entries, is sorted by score descending, and contains the
new entry unless it was truncated away, in which case all 50 surviving
entries score at least as much. -/
theorem save_highscore_spec (entries : List HighscoreEntry) (name : String) (score : ℕ) :
    (save_highscore entries name score).length ≤ MAX_SAVED_SCORES ∧
    List.Pairwise (fun a b : HighscoreEntry => b.score ≤ a.score)
      (save_highscore entries name score) ∧
    (HighscoreEntry.mk name score ∈ save_highscore entries name score ∨
      ((save_highscore entries name score).length = MAX_SAVED_SCORES ∧
        ∀ e ∈ save_highscore entries name score, score ≤ e.score)) := by
  have htrans : ∀ (a b c : HighscoreEntry),
      scoreDescLe a b = true → scoreDescLe b c = true → scoreDescLe a c = true := by
    intro a b c hab hbc
    simp only [scoreDescLe, decide_eq_true_eq] at hab hbc ⊢
    omega
  have htot : ∀ (a b : HighscoreEntry), (scoreDescLe a b || scoreDescLe b a) = true := by
    intro a b
    simp only [scoreDescLe, Bool.or_eq_true, decide_eq_true_eq]
    omega
  set L := (entries ++ [HighscoreEntry.mk name score]).mergeSort scoreDescLe with hL
  have hsave : save_highscore entries name score = L.take MAX_SAVED_SCORES := by
    rw [save_highscore, hL]
  have hsorted : List.Pairwise (fun a b : HighscoreEntry => scoreDescLe a b = true) L :=
    List.sorted_mergeSort htrans htot _
  have hsorted' : List.Pairwise (fun a b : HighscoreEntry => b.score ≤ a.score) L :=
    hsorted.imp (by intro a b hab; simpa [scoreDescLe] using hab)
  rw [hsave]
  refine ⟨List.length_take_le _ _,
    List.Pairwise.sublist (List.take_sublist _ _) hsorted', ?_⟩
  have hmem : HighscoreEntry.mk name score ∈ L := by
    rw [hL, (List.mergeSort_perm _ _).mem_iff]
    simp
  have hmem2 : HighscoreEntry.mk name score
      ∈ L.take MAX_SAVED_SCORES ++ L.drop MAX_SAVED_SCORES := by
    rw [List.take_append_drop]
    exact hmem
  rcases List.mem_append.mp hmem2 with hin | hin
  · exact Or.inl hin
  · right
    have hlong : MAX_SAVED_SCORES < L.length := by
      by_contra hle
      push_neg at hle
      rw [List.drop_eq_nil_iff.mpr hle] at hin
      exact absurd hin (List.not_mem_nil _)
    constructor
    · rw [List.length_take]
      omega
    · intro e he
      have hsorted2 : List.Pairwise (fun a b : HighscoreEntry => b.score ≤ a.score)
          (L.take MAX_SAVED_SCORES ++ L.drop MAX_SAVED_SCORES) := by
        rw [List.take_append_drop]
        exact hsorted'
      exact (List.pairwise_append.mp hsorted2).2.2 e he _ hin

/-- C2 counterexample: in the concrete edge frame of `edgeState`, a single
`update_enemies` call changes both the x and the y coordinates of the
enemy: horizontal movement and descent happen in the same frame, and no
remaining-descent state exists that would suspend horizontal movement. -/
theorem descent_not_exclusive_cex :
    (update_enemies edgeState 1).enemies.map Enemy.x
      ≠ edgeState.enemies.map Enemy.x ∧
    (update_enemies edgeState 1).enemies.map Enemy.y
      ≠ edgeState.enemies.map Enemy.y := by
  have hev : (update_enemies edgeState 1).enemies
      = [⟨1150, 140, 1, .Standard, 1⟩] := by
    norm_num [update_enemies, edgeState, Enemy.new, EnemyType.initialHealth,
      descendAll, Enemy.updateGlobal, Enemy.has_reached_edge, Enemy.move_down,
      Enemy.has_breached_defender_line, EDGE_MARGIN, SCREEN_WIDTH, SCREEN_HEIGHT,
      DEFENDER_LINE]
  rw [hev]
  norm_num [edgeState, Enemy.new]

/-- C2 (amended): the code keeps no remaining-descent distance.  Every
`update_enemies` call advances every enemy x by `direction * speed * dt`;
on a quiet frame or an already-descended frame y is unchanged; on the
first edge frame every enemy additionally descends 40 px (absent a breach)
within the very same call, so horizontal and vertical movement are not
mutually exclusive. -/
theorem update_enemies_movement_spec (s : MainState) (dt : ℚ) :
    ((update_enemies s dt).enemies.map Enemy.x
      = s.enemies.map fun e => e.x + s.enemy_direction * s.enemy_speed * dt) ∧
    (edgeTriggered s dt = false →
      (update_enemies s dt).enemies.map Enemy.y = s.enemies.map Enemy.y) ∧
    (s.moved_down = true →
      (update_enemies s dt).enemies.map Enemy.y = s.enemies.map Enemy.y) ∧
    (edgeTriggered s dt = true → s.moved_down = false →
      (descendAll (movedEnemies s dt)).2 = false →
      (update_enemies s dt).enemies.map Enemy.y
        = s.enemies.map fun e => e.y + 40) := by
  refine ⟨update_enemies_map_x s dt, ?_, ?_, ?_⟩
  · intro hedge
    rw [update_enemies_no_edge_eq s dt hedge]
    exact movedEnemies_map_y s dt
  · intro hmd
    by_cases hedge : edgeTriggered s dt
    · rw [update_enemies_already_down_eq s dt hedge hmd]
      exact movedEnemies_map_y s dt
    · rw [update_enemies_no_edge_eq s dt (by simpa using hedge)]
      exact movedEnemies_map_y s dt
  · intro hedge hmd hnb
    rw [update_enemies_edge_eq s dt hedge hmd]
    dsimp only
    rw [descendAll_no_breach _ hnb, movedEnemies, List.map_map, List.map_map]
    rfl

/-- Witness for C2 (amended) at `edgeState` with dt = 1. -/
theorem update_enemies_movement_spec_witness :
    edgeTriggered edgeState 1 = true ∧ edgeState.moved_down = false ∧
    (descendAll (movedEnemies edgeState 1)).2 = false ∧
    (update_enemies edgeState 1).enemies.map Enemy.y
      = edgeState.enemies.map fun e => e.y + 40 := by
  have h1 : edgeTriggered edgeState 1 = true := by
    norm_num [edgeTriggered, movedEnemies, edgeState, Enemy.new,
      EnemyType.initialHealth, Enemy.updateGlobal, Enemy.has_reached_edge,
      EDGE_MARGIN, SCREEN_WIDTH]
  have h2 : edgeState.moved_down = false := rfl
  have h3 : (descendAll (movedEnemies edgeState 1)).2 = false := by
    norm_num [descendAll, movedEnemies, edgeState, Enemy.new,
      EnemyType.initialHealth, Enemy.updateGlobal, Enemy.move_down,
      Enemy.has_breached_defender_line, SCREEN_HEIGHT, DEFENDER_LINE]
  exact ⟨h1, h2, h3, (update_enemies_movement_spec edgeState 1).2.2.2 h1 h2 h3⟩

/-- C3 counterexample: in `breachedState` an enemy already sits below the
defender line, yet because no enemy reaches a screen edge in this frame,
`update_enemies` leaves the state `Playing`: the defender-line check does
not run on every frame. -/
theorem breach_check_skipped_cex :
    breachedState.enemies.any Enemy.has_breached_defender_line = true ∧
    breachedState.state = GameState.Playing ∧
    (update_enemies breachedState 1).state = GameState.Playing := by
  refine ⟨?_, rfl, ?_⟩
  · norm_num [breachedState, Enemy.new, EnemyType.initialHealth,
      Enemy.has_breached_defender_line, SCREEN_HEIGHT, DEFENDER_LINE]
  · have hedge : edgeTriggered breachedState 1 = false := by
      norm_num [edgeTriggered, movedEnemies, breachedState, Enemy.new,
        EnemyType.initialHealth, Enemy.updateGlobal, Enemy.has_reached_edge,
        EDGE_MARGIN, SCREEN_WIDTH]
    rw [update_enemies_no_edge_eq breachedState 1 hedge]
    rfl

/-- C3 (amended): the defender-line check runs only on the first edge
frame: there the state becomes GameOver exactly when the descent loop
reports a breach (and the loop stops at the breaching enemy); on every
other frame `update_enemies` leaves the state untouched. -/
theorem game_over_only_on_descent_frames (s : MainState) (dt : ℚ) :
    (edgeTriggered s dt = false → (update_enemies s dt).state = s.state) ∧
    (s.moved_down = true → (update_enemies s dt).state = s.state) ∧
    (edgeTriggered s dt = true → s.moved_down = false →
      (update_enemies s dt).state
        = if (descendAll (movedEnemies s dt)).2 then GameState.GameOver
          else s.state) ∧
    (edgeTriggered s dt = true → s.moved_down = false →
      (update_enemies s dt).enemies = (descendAll (movedEnemies s dt)).1) := by
  refine ⟨?_, ?_, ?_, ?_⟩
  · intro hedge
    rw [update_enemies_no_edge_eq s dt hedge]
  · intro hmd
    by_cases hedge : edgeTriggered s dt
    · rw [update_enemies_already_down_eq s dt hedge hmd]
    · rw [update_enemies_no_edge_eq s dt (by simpa using hedge)]
  · intro hedge hmd
    rw [update_enemies_edge_eq s dt hedge hmd]
  · intro hedge hmd
    rw [update_enemies_edge_eq s dt hedge hmd]

/-- Witness for C3 (amended): a quiet frame leaves `Playing` untouched and
the edge frame of `edgeState` takes the if-branch of the descent result. -/
theorem game_over_only_on_descent_frames_witness :
    edgeTriggered breachedState 1 = false ∧
    (update_enemies breachedState 1).state = breachedState.state ∧
    edgeTriggered edgeState 1 = true ∧ edgeState.moved_down = false ∧
    (update_enemies edgeState 1).state
      = if (descendAll (movedEnemies edgeState 1)).2 then GameState.GameOver
        else edgeState.state := by
  have h0 : edgeTriggered breachedState 1 = false := by
    norm_num [edgeTriggered, movedEnemies, breachedState, Enemy.new,
      EnemyType.initialHealth, Enemy.updateGlobal, Enemy.has_reached_edge,
      EDGE_MARGIN, SCREEN_WIDTH]
  have h1 : edgeTriggered edgeState 1 = true := by
    norm_num [edgeTriggered, movedEnemies, edgeState, Enemy.new,
      EnemyType.initialHealth, Enemy.updateGlobal, Enemy.has_reached_edge,
      EDGE_MARGIN, SCREEN_WIDTH]
  exact ⟨h0, (game_over_only_on_descent_frames breachedState 1).1 h0, h1, rfl,
    (game_over_only_on_descent_frames edgeState 1).2.2.1 h1 rfl⟩

/-- C4 counterexample: on the edge frame of `edgeState` the enemy ends the
update at x = 1150, beyond the right screen margin of 1004: overshooting
enemies are not clamped back inside the margin. -/
theorem no_clamping_cex :
    edgeTriggered edgeState 1 = true ∧ edgeState.moved_down = false ∧
    ∃ e ∈ (update_enemies edgeState 1).enemies,
      ¬(e.x ≤ SCREEN_WIDTH - EDGE_MARGIN) := by
  have h1 : edgeTriggered edgeState 1 = true := by
    norm_num [edgeTriggered, movedEnemies, edgeState, Enemy.new,
      EnemyType.initialHealth, Enemy.updateGlobal, Enemy.has_reached_edge,
      EDGE_MARGIN, SCREEN_WIDTH]
  have hev : (update_enemies edgeState 1).enemies
      = [⟨1150, 140, 1, .Standard, 1⟩] := by
    norm_num [update_enemies, edgeState, Enemy.new, EnemyType.initialHealth,
      descendAll, Enemy.updateGlobal, Enemy.has_reached_edge, Enemy.move_down,
      Enemy.has_breached_defender_line, EDGE_MARGIN, SCREEN_WIDTH, SCREEN_HEIGHT,
      DEFENDER_LINE]
  refine ⟨h1, rfl, ⟨1150, 140, 1, .Standard, 1⟩, ?_, ?_⟩
  · rw [hev]
    exact List.mem_singleton_self _
  · norm_num [SCREEN_WIDTH, EDGE_MARGIN]

/-- C4 (amended): on the first edge frame the shared formation direction is
negated and `moved_down` is set; when no breach interrupts the drop, every
enemy keeps its horizontally advanced x (no clamping back inside the
margin) and descends exactly 40 px in the same frame; there is no
remaining-descent counter, the descent being instantaneous. -/
theorem edge_frame_reversal_spec (s : MainState) (dt : ℚ)
    (hedge : edgeTriggered s dt = true) (hmd : s.moved_down = false) :
    (update_enemies s dt).enemy_direction = s.enemy_direction * (-1) ∧
    (update_enemies s dt).moved_down = true ∧
    ((descendAll (movedEnemies s dt)).2 = false →
      (update_enemies s dt).enemies
        = s.enemies.map fun e =>
            { e with
              x := e.x + s.enemy_direction * s.enemy_speed * dt
              y := e.y + 40 }) := by
  rw [update_enemies_edge_eq s dt hedge hmd]
  refine ⟨rfl, rfl, ?_⟩
  intro hnb
  dsimp only
  rw [descendAll_no_breach _ hnb, movedEnemies, List.map_map]
  rfl

/-- Witness for C4 (amended) at `edgeState` with dt = 1. -/
theorem edge_frame_reversal_spec_witness :
    edgeTriggered edgeState 1 = true ∧ edgeState.moved_down = false ∧
    (update_enemies edgeState 1).enemy_direction
      = edgeState.enemy_direction * (-1) ∧
    (update_enemies edgeState 1).moved_down = true := by
  have h1 : edgeTriggered edgeState 1 = true := by
    norm_num [edgeTriggered, movedEnemies, edgeState, Enemy.new,
      EnemyType.initialHealth, Enemy.updateGlobal, Enemy.has_reached_edge,
      EDGE_MARGIN, SCREEN_WIDTH]
  exact ⟨h1, rfl, (edge_frame_reversal_spec edgeState 1 h1 rfl).1,
    (edge_frame_reversal_spec edgeState 1 h1 rfl).2.1⟩

/-- C5 counterexample: two bullets in range of one full-health Tank.  The
claim predicts that only the first bullet damages it and is consumed while
the second is preserved; in the code both bullets damage the still-alive
Tank and both are consumed, leaving an empty bullet list and the Tank at
one health. -/
theorem multi_bullet_tank_cex :
    (process_collisions [Enemy.new 100 200 1 .Tank]
        [Bullet.mk 100 200, Bullet.mk 100 200]).2.1 = [] ∧
    (process_collisions [Enemy.new 100 200 1 .Tank]
        [Bullet.mk 100 200, Bullet.mk 100 200]).1
      = [⟨100, 200, 1, .Tank, 1⟩] := by
  norm_num [process_collisions, collideLoop, damageFirst, swapRemove,
    check_collision, Enemy.take_damage, Enemy.is_destroyed, Enemy.new,
    EnemyType.initialHealth, COLLISION_RADIUS_SQ, COLLISION_RADIUS]

/-- C5 (amended): in one `process_collisions` pass each consumed bullet
deals exactly one point of damage to exactly one enemy (the total health
drop equals the number of consumed bullets, so each bullet has at most one
interaction), a bullet in range of no enemy survives with its multiplicity
intact, and for a single-hit-point enemy only the first bullet in
iteration order scores the kill, the enemy then being skipped as
destroyed so the second bullet survives.  However, while a multi-hit enemy
is still alive, each later in-range bullet also damages it and is
consumed. -/
theorem process_collisions_bullet_semantics (es : List Enemy) (bs : List Bullet) :
    ((process_collisions es bs).2.1.length ≤ bs.length) ∧
    (sumHealth es + (process_collisions es bs).2.1.length
      = sumHealth (process_collisions es bs).1 + bs.length) ∧
    (∀ b : Bullet, (∀ e ∈ es, check_collision b e = false) →
      (process_collisions es bs).2.1.count b = bs.count b) ∧
    ((process_collisions [Enemy.new 100 200 1 .Standard]
        [Bullet.mk 100 200, Bullet.mk 105 205]).2.1
      = [Bullet.mk 105 205]) := by
  obtain ⟨h1, h2, h3, h4⟩ := process_collisions_spec es bs
  refine ⟨h1, h2, h3, ?_⟩
  norm_num [process_collisions, collideLoop, damageFirst, swapRemove,
    check_collision, Enemy.take_damage, Enemy.is_destroyed, Enemy.new,
    EnemyType.initialHealth, COLLISION_RADIUS_SQ, COLLISION_RADIUS]

/-- Witness for C5 (amended): a far-away bullet collides with nothing and
keeps its multiplicity through the pass. -/
theorem process_collisions_bullet_semantics_witness :
    (∀ e ∈ [Enemy.new 100 200 1 .Standard],
      check_collision (Bullet.mk 500 500) e = false) ∧
    (process_collisions [Enemy.new 100 200 1 .Standard]
        [Bullet.mk 500 500]).2.1.count (Bullet.mk 500 500)
      = [Bullet.mk 500 500].count (Bullet.mk 500 500) := by
  have hb : ∀ e ∈ [Enemy.new 100 200 1 .Standard],
      check_collision (Bullet.mk 500 500) e = false := by
    intro e he
    simp only [List.mem_singleton] at he
    subst he
    norm_num [check_collision, Enemy.new, COLLISION_RADIUS_SQ, COLLISION_RADIUS]
  exact ⟨hb,
    (process_collisions_bullet_semantics [Enemy.new 100 200 1 .Standard]
      [Bullet.mk 500 500]).2.2.1 (Bullet.mk 500 500) hb⟩

/-- C1 counterexample: in `tankState` three bullets destroy one Tank.  The
destroyed-info tuples report the Tank's variant value 50, but
`update_collisions` adds only `1 * POINTS_PER_ENEMY = 10` to the score:
the score uses a flat per-kill constant, not the per-enemy variant
value. -/
theorem score_flat_constant_cex :
    (update_collisions tankState).score = 10 ∧
    sumPoints (process_collisions tankState.enemies tankState.bullets).2.2 = 50 ∧
    (10 : ℕ) ≠ 50 := by
  refine ⟨?_, ?_, by omega⟩
  · norm_num [update_collisions, tankState, process_collisions, collideLoop,
      damageFirst, swapRemove, check_collision, Enemy.take_damage,
      Enemy.is_destroyed, Enemy.new, EnemyType.initialHealth, EnemyType.points,
      COLLISION_RADIUS_SQ, COLLISION_RADIUS, POINTS_PER_ENEMY]
  · norm_num [sumPoints, tankState, process_collisions, collideLoop,
      damageFirst, swapRemove, check_collision, Enemy.take_damage,
      Enemy.is_destroyed, Enemy.new, EnemyType.initialHealth, EnemyType.points,
      COLLISION_RADIUS_SQ, COLLISION_RADIUS]

/-- C1 (amended): in each Playing update frame, when no enemy starts the
frame already destroyed, `update_collisions` increases the score (with u32
wrap-around) by `POINTS_PER_ENEMY` — the flat constant 10 — for each enemy
the Collision Resolver removed, regardless of the enemies' variant point
values. -/
theorem update_collisions_flat_scoring (s : MainState)
    (halive : ∀ e ∈ s.enemies, e.is_destroyed = false) :
    (update_collisions s).score
      = (s.score
          + (s.enemies.length - (update_collisions s).enemies.length)
            * POINTS_PER_ENEMY) % 2 ^ 32 := by
  have h4 := (process_collisions_spec s.enemies s.bullets).2.2.2
  have hcz : s.enemies.countP Enemy.is_destroyed = 0 := by
    rw [List.countP_eq_zero]
    intro a ha
    simp [halive a ha]
  rw [update_collisions]
  dsimp only
  have hinfo : (process_collisions s.enemies s.bullets).2.2.length
      = s.enemies.length - (process_collisions s.enemies s.bullets).1.length := by
    omega
  rw [hinfo]

/-- Witness for C1 (amended) at `tankState`. -/
theorem update_collisions_flat_scoring_witness :
    (∀ e ∈ tankState.enemies, e.is_destroyed = false) ∧
    (update_collisions tankState).score
      = (tankState.score
          + (tankState.enemies.length - (update_collisions tankState).enemies.length)
            * POINTS_PER_ENEMY) % 2 ^ 32 := by
  have ha : ∀ e ∈ tankState.enemies, e.is_destroyed = false := by
    intro e he
    simp only [tankState, List.mem_singleton] at he
    subst he
    norm_num [Enemy.is_destroyed, Enemy.new, EnemyType.initialHealth]
  exact ⟨ha, update_collisions_flat_scoring tankState ha⟩

end Ten
